import Mathlib

/-!
A shallow embedding of `src/fvs/state.py` (class `FVSState`) of the FVS
file-versioning engine, together with theorems settling the specification
claims about commit validation, the query surface, reference breaking and
the commit/load round trip.

Modelling conventions:
* Python `dict` objects keyed by strings are embedded as association lists
  `List (String × α)` with Python's assignment semantics: assigning to an
  existing key replaces its value in place (keeping its position), assigning
  a fresh key appends it.  Iteration over `.values()` is iteration over the
  list in order, which matches Python's insertion-order dictionaries.
* The unstaged-diff dict has optional fields (a missing key makes
  `dict.get` return `None`), so each field is an `Option`.
* Python's `False in [x1, ..., x5]` membership test compares each element
  with `==`.  `None == False`, `[] == False` and `"" == False` are all
  `False` in Python; only an integer (or bool) element equal to `0` compares
  equal to `False`.  The embedding `falseInUnstagedValues` reproduces this.
* Exceptions become an error type threaded through `Except`; an uncaught
  `KeyError` from a dict subscript is `FVSError.keyError`.
* The external collaborators (`FVSData` content-store transaction, the
  repository's metadata storage, YAML serialization) are not under `src/`;
  they are modelled from the spec where noted.  The effects a method asks of
  them are additionally recorded as an event trace so that ordering
  properties can be stated.
* The caller-identity check (`FVSUtils.get_caller_class_name`) inspects the
  Python call stack and has no shallow embedding; the embedded methods model
  the behaviour seen by the authorized caller (`FVSRepo`).
-/

/-- One file record as it appears in diffs and in state partitions:
`file_name`, `md5` (the content hash) and `relative_path`. -/
structure FVSEntry where
  file_name : String
  md5 : String
  relative_path : String
deriving DecidableEq, Repr

/-- Keys of a Python-style association list. -/
def dictKeys {α : Type} (d : List (String × α)) : List String :=
  d.map Prod.fst

/-- Python `k in d` for a dict. -/
def dictContains {α : Type} (d : List (String × α)) (k : String) : Bool :=
  d.any (fun p => p.1 == k)

/-- Python `d[k] = v`: replace the value in place when the key exists
(keeping its position), append the pair otherwise. -/
def dictInsert {α : Type} (d : List (String × α)) (k : String) (v : α) :
    List (String × α) :=
  if dictContains d k then
    d.map (fun p => if p.1 == k then (k, v) else p)
  else
    d ++ [(k, v)]

/-- Insert every entry of `l` into `d` keyed by its md5, in order.  This is
the loop `for _file in ... : partition[_file["md5"]] = _file`. -/
def insertAll (d : List (String × FVSEntry)) (l : List FVSEntry) :
    List (String × FVSEntry) :=
  l.foldl (fun acc e => dictInsert acc e.md5 e) d

/-- First value of the dict (in insertion order) whose `relative_path`
equals `p`, as in the linear scans of `has_relative_path`. -/
def findByRelPath (d : List (String × FVSEntry)) (p : String) : Option FVSEntry :=
  (d.find? (fun kv => kv.2.relative_path == p)).map Prod.snd

/-- The `__files` structure of an `FVSState`: a count plus the four
partitions, each a dict from content hash to entry. -/
structure FVSFiles where
  count : Int
  added : List (String × FVSEntry)
  modified : List (String × FVSEntry)
  removed : List (String × FVSEntry)
  intact : List (String × FVSEntry)
deriving DecidableEq, Repr

/-- An `FVSState`: optional state id (unset until commit or load) and the
files structure. -/
structure FVSState where
  state_id : Option Nat
  files : FVSFiles
deriving DecidableEq, Repr

/-- The `unstaged_files` dict passed to `commit`.  Every field is optional
because Python `dict.get` yields `None` for a missing key. -/
structure UnstagedDiff where
  count : Option Int
  added : Option (List FVSEntry)
  modified : Option (List FVSEntry)
  removed : Option (List FVSEntry)
  intact : Option (List FVSEntry)
deriving DecidableEq, Repr

/-- The exceptions `FVSState` can raise, plus Python's `KeyError` for a
failed dict subscript. -/
inductive FVSError where
  | committingToExistingState
  | emptyCommitMessage
  | wrongUnstagedDict
  | stateNotFound (state_id : Nat)
  | unsupportedKey
  | keyError (k : String)
deriving DecidableEq, Repr

/-- Calls issued to the external collaborators during a method run, in
order: content-store adds/deletes queued on the `FVSData` transaction, the
transaction commit point, and the metadata (`files.yml`) write. -/
inductive FVSEvent where
  | addFileOp (e : FVSEntry)
  | deleteFileOp (e : FVSEntry)
  | completeTx
  | writeMetadata (state_id : Nat) (files : FVSFiles)
deriving DecidableEq, Repr

/-- Modelled from the spec: the durable world outside `FVSState` ---
`store` is the set of content blobs (by hash) held by the content store
(`fvs.data`, not under `src/`), and `metadata` maps each committed state id
to its persisted `files.yml` record (YAML round-tripping is modelled as the
identity on the record). -/
structure FVSEnv where
  store : List String
  metadata : List (Nat × FVSFiles)
deriving DecidableEq, Repr

/-- Whether metadata for `state_id` exists on storage.  Modelled from the
spec: `__is_initialized` asks `repo.is_valid_state(repo.next_state_id)`,
which raises `FVSStateNotFound` exactly when no state record exists at that
id. -/
def hasMetadata (env : FVSEnv) (state_id : Nat) : Bool :=
  env.metadata.any (fun p => p.1 == state_id)

/-- Python equality `False == x` for the fetched `count` field: `None`
(missing key) is not equal to `False`; an integer equals `False` exactly
when it is `0`. -/
def pyFalseEqCount : Option Int → Bool
  | some c => c == 0
  | none => false

/-- Python equality `False == x` for a fetched sequence field: neither
`None` nor any list (empty or not) compares equal to `False`. -/
def pyFalseEqSeq : Option (List FVSEntry) → Bool
  | _ => false

/-- The validation `False in [get "count", get "added", get "modified",
get "removed", get "intact"]` from `commit`. -/
def falseInUnstagedValues (d : UnstagedDiff) : Bool :=
  pyFalseEqCount d.count || pyFalseEqSeq d.added || pyFalseEqSeq d.modified ||
    pyFalseEqSeq d.removed || pyFalseEqSeq d.intact

/-- The files structure built by `commit`'s four partition loops from the
diff's lists, starting from the empty skeleton. -/
def buildFiles (c : Int) (la lm lr li : List FVSEntry) : FVSFiles :=
  { count := c
  , added := insertAll [] la
  , modified := insertAll [] lm
  , removed := insertAll [] lr
  , intact := insertAll [] li }

/-- Modelled from the spec: `complete_transaction` applies all queued adds
and deletes to the content store as one unit (reference counting across
states is the content store's own concern and is not modelled). -/
def applyTransaction (adds dels : List FVSEntry) (store : List String) :
    List String :=
  (store.filter (fun h => !((dels.map FVSEntry.md5).contains h))) ++
    adds.map FVSEntry.md5

/-- `FVSState.commit` for the authorized caller: the already-committed
check, the message check, the `False in [...]` diff check, then the four
partition loops (queuing `add_file` for added and modified entries), the
transaction commit, and the metadata write.  Returns the outcome, the
resulting environment (unchanged on failure) and the trace of collaborator
calls issued. -/
def FVSState.commit (nextId : Nat) (message : Option String)
    (unstaged : UnstagedDiff) (env : FVSEnv) :
    Except FVSError FVSState × FVSEnv × List FVSEvent :=
  if hasMetadata env nextId then
    (.error .committingToExistingState, env, [])
  else if message = none ∨ message = some "" then
    (.error .emptyCommitMessage, env, [])
  else if falseInUnstagedValues unstaged then
    (.error .wrongUnstagedDict, env, [])
  else
    match unstaged.count, unstaged.added, unstaged.modified,
        unstaged.removed, unstaged.intact with
    | none, _, _, _, _ => (.error (.keyError "count"), env, [])
    | some _, none, _, _, _ => (.error (.keyError "added"), env, [])
    | some _, some la, none, _, _ =>
      (.error (.keyError "modified"), env, la.map FVSEvent.addFileOp)
    | some _, some la, some lm, none, _ =>
      (.error (.keyError "removed"), env, (la ++ lm).map FVSEvent.addFileOp)
    | some _, some la, some lm, some _, none =>
      (.error (.keyError "intact"), env, (la ++ lm).map FVSEvent.addFileOp)
    | some c, some la, some lm, some lr, some li =>
      let files := buildFiles c la lm lr li
      let env1 : FVSEnv :=
        { store := applyTransaction (la ++ lm) [] env.store
        , metadata := env.metadata ++ [(nextId, files)] }
      (.ok { state_id := some nextId, files := files }, env1,
        (la ++ lm).map FVSEvent.addFileOp ++
          [FVSEvent.completeTx, FVSEvent.writeMetadata nextId files])

/-- `FVSState.load` / `__load_state`: fail with `FVSStateNotFound` when no
metadata exists for the id, otherwise reconstruct the state from the
persisted record. -/
def FVSState.load (env : FVSEnv) (state_id : Nat) : Except FVSError FVSState :=
  match env.metadata.find? (fun p => p.1 == state_id) with
  | none => .error (.stateNotFound state_id)
  | some p => .ok { state_id := some state_id, files := p.2 }

/-- `FVSState.break_references` for the authorized caller: queue a
`delete_file` for every value of the added partition, then for every value
of the modified partition, then complete the transaction. -/
def FVSState.break_references (s : FVSState) (env : FVSEnv) :
    FVSEnv × List FVSEvent :=
  let dels := s.files.added.map Prod.snd ++ s.files.modified.map Prod.snd
  ({ store := applyTransaction [] dels env.store, metadata := env.metadata },
    dels.map FVSEvent.deleteFileOp ++ [FVSEvent.completeTx])

/-- `FVSState.has_file`: membership of the hash in the added, modified or
intact partition. -/
def FVSState.has_file (s : FVSState) (md5 : String) : Bool :=
  dictContains s.files.added md5 || dictContains s.files.modified md5 ||
    dictContains s.files.intact md5

/-- `FVSState.has_relative_path`: reject unsupported keys; for `"any"`,
scan intact, then modified, then added, returning the first match --- when
none matches, control falls through to the subscript `self.__files["any"]`,
which raises `KeyError`; for a specific key, scan that partition and return
the match or `None`. -/
def FVSState.has_relative_path (s : FVSState) (relative_path : String)
    (key : String) : Except FVSError (Option FVSEntry) :=
  if !(["any", "added", "modified", "intact"].contains key) then
    .error .unsupportedKey
  else
    let anyResult : Option FVSEntry :=
      if key == "any" then
        match findByRelPath s.files.intact relative_path with
        | some f => some f
        | none =>
          match findByRelPath s.files.modified relative_path with
          | some f => some f
          | none => findByRelPath s.files.added relative_path
      else none
    match anyResult with
    | some f => .ok (some f)
    | none =>
      if key == "any" then .error (.keyError "any")
      else if key == "added" then .ok (findByRelPath s.files.added relative_path)
      else if key == "modified" then .ok (findByRelPath s.files.modified relative_path)
      else .ok (findByRelPath s.files.intact relative_path)

/-- Boolean disjointness of two lists of strings. -/
def disjointB (l1 l2 : List String) : Bool :=
  l1.all (fun x => decide (¬ (x ∈ l2)))

/-- The md5 images of a diff list. -/
def md5s (l : List FVSEntry) : List String :=
  l.map FVSEntry.md5

/-- Pairwise key-disjointness of the four partitions of a files record. -/
def filesKeysDisjoint (fs : FVSFiles) : Bool :=
  disjointB (dictKeys fs.added) (dictKeys fs.modified) &&
  disjointB (dictKeys fs.added) (dictKeys fs.removed) &&
  disjointB (dictKeys fs.added) (dictKeys fs.intact) &&
  disjointB (dictKeys fs.modified) (dictKeys fs.removed) &&
  disjointB (dictKeys fs.modified) (dictKeys fs.intact) &&
  disjointB (dictKeys fs.removed) (dictKeys fs.intact)

/-- Sample entry used in concrete checks: name `a.txt`, hash `ha`, path `/a`. -/
def entA : FVSEntry := ⟨"a.txt", "ha", "/a"⟩

/-- Sample entry: name `b.txt`, hash `hb`, path `/b`. -/
def entB : FVSEntry := ⟨"b.txt", "hb", "/b"⟩

/-- Sample entry sharing `relative_path` `/a` with `entA` but with a
different content hash. -/
def entA2 : FVSEntry := ⟨"a2.txt", "ha2", "/a"⟩

/-- Sample entry: name `c.txt`, hash `hc`, path `/c`. -/
def entC : FVSEntry := ⟨"c.txt", "hc", "/c"⟩

/-- The empty environment: empty content store, no committed states. -/
def env0 : FVSEnv := ⟨[], []⟩

/-! ### Helper lemmas -/

theorem find_metadata_append (m : List (Nat × FVSFiles)) (id : Nat) (fs : FVSFiles)
    (h : m.any (fun p => p.1 == id) = false) :
    (m ++ [(id, fs)]).find? (fun p => p.1 == id) = some (id, fs) := by
  induction m with
  | nil => simp
  | cons hd tl ih =>
    simp only [List.any_cons, Bool.or_eq_false_iff] at h
    simp [List.find?, h.1, ih h.2]

theorem commit_ok_inv {nextId : Nat} {message : Option String}
    {unstaged : UnstagedDiff} {env : FVSEnv} {s : FVSState} {env' : FVSEnv}
    {tr : List FVSEvent}
    (h : FVSState.commit nextId message unstaged env = (.ok s, env', tr)) :
    hasMetadata env nextId = false ∧
    ∃ c la lm lr li,
      unstaged.count = some c ∧ unstaged.added = some la ∧
      unstaged.modified = some lm ∧ unstaged.removed = some lr ∧
      unstaged.intact = some li ∧
      s = ⟨some nextId, buildFiles c la lm lr li⟩ ∧
      env' = ⟨applyTransaction (la ++ lm) [] env.store,
              env.metadata ++ [(nextId, buildFiles c la lm lr li)]⟩ ∧
      tr = (la ++ lm).map FVSEvent.addFileOp ++
        [FVSEvent.completeTx, FVSEvent.writeMetadata nextId (buildFiles c la lm lr li)] := by
  unfold FVSState.commit at h
  split at h
  · simp at h
  · split at h
    · simp at h
    · split at h
      · simp at h
      · split at h <;> simp_all

theorem find_metadata_none (m : List (Nat × FVSFiles)) (id : Nat)
    (h : m.any (fun p => p.1 == id) = false) :
    m.find? (fun p => p.1 == id) = none := by
  induction m with
  | nil => rfl
  | cons hd tl ih =>
    simp only [List.any_cons, Bool.or_eq_false_iff] at h
    simp [List.find?, h.1, ih h.2]

theorem falseIn_iff_count_zero (d : UnstagedDiff) :
    falseInUnstagedValues d = true ↔ d.count = some 0 := by
  cases hc : d.count <;>
    simp [falseInUnstagedValues, pyFalseEqCount, pyFalseEqSeq, hc]

theorem mem_dictKeys_dictInsert {α : Type} {d : List (String × α)}
    {k x : String} {v : α}
    (h : x ∈ dictKeys (dictInsert d k v)) : x ∈ dictKeys d ∨ x = k := by
  unfold dictInsert at h
  split at h
  · simp only [dictKeys, List.map_map, List.mem_map, Function.comp] at h
    obtain ⟨p, hp, hx⟩ := h
    by_cases hc : p.1 == k
    · right
      simp [hc] at hx
      exact hx.symm
    · left
      simp [hc] at hx
      exact List.mem_map.mpr ⟨p, hp, hx⟩
  · simp only [dictKeys, List.map_append, List.mem_append, List.map_cons,
      List.map_nil, List.mem_singleton] at h
    rcases h with h | h
    · exact Or.inl h
    · exact Or.inr h

theorem mem_dictKeys_insertAll {d : List (String × FVSEntry)}
    {l : List FVSEntry} {x : String}
    (h : x ∈ dictKeys (insertAll d l)) : x ∈ dictKeys d ∨ x ∈ md5s l := by
  induction l generalizing d with
  | nil => exact Or.inl h
  | cons e rest ih =>
    have hstep : insertAll d (e :: rest) = insertAll (dictInsert d e.md5 e) rest := rfl
    rw [hstep] at h
    rcases ih h with h1 | h1
    · rcases mem_dictKeys_dictInsert h1 with h2 | h2
      · exact Or.inl h2
      · exact Or.inr (by simp [md5s, h2])
    · refine Or.inr ?_
      simp only [md5s, List.map_cons, List.mem_cons]
      exact Or.inr h1

theorem keys_insertAll_subset (l : List FVSEntry) :
    ∀ x, x ∈ dictKeys (insertAll [] l) → x ∈ md5s l := by
  intro x hx
  rcases mem_dictKeys_insertAll hx with h | h
  · simp [dictKeys] at h
  · exact h

theorem disjointB_mono {a b a' b' : List String}
    (ha : ∀ x, x ∈ a' → x ∈ a) (hb : ∀ x, x ∈ b' → x ∈ b)
    (h : disjointB a b = true) : disjointB a' b' = true := by
  simp only [disjointB, List.all_eq_true, decide_eq_true_eq] at h ⊢
  intro x hx hxb
  exact h x (ha x hx) (hb x hxb)

/-! ### Claim theorems -/

/-- Claim C1, counterexample: a diff that supplies all five keys but with
empty (falsy) sequences for added, modified, removed and intact is NOT
rejected with `FVSWrongUnstagedDict` --- the commit succeeds, because
Python's `False in [...]` membership test compares with `==` and an empty
list is not `==` to `False`. -/
theorem commit_accepts_empty_sequences :
    (FVSState.commit 0 (some "init")
        ⟨some 3, some [], some [], some [], some []⟩ env0).1 =
      .ok ⟨some 0, ⟨3, [], [], [], []⟩⟩ := rfl

/-- Claim C1, amended: once the caller/slot and message checks have passed,
`commit` raises `FVSWrongUnstagedDict` if and only if the diff's `count`
value compares equal to Python's `False`, i.e. iff `count` is `0`; missing
keys (fetched as `None`) and empty sequences pass the check untouched. -/
theorem commit_wrongUnstagedDict_iff_count_zero
    (nextId : Nat) (message : Option String) (unstaged : UnstagedDiff)
    (env : FVSEnv)
    (hm : hasMetadata env nextId = false)
    (h1 : message ≠ none) (h2 : message ≠ some "") :
    (FVSState.commit nextId message unstaged env).1 =
        .error .wrongUnstagedDict ↔
      unstaged.count = some 0 := by
  have hmsg : ¬ (message = none ∨ message = some "") := by
    rintro (h | h)
    · exact h1 h
    · exact h2 h
  unfold FVSState.commit
  rw [if_neg (by simp [hm]), if_neg hmsg]
  by_cases hf : falseInUnstagedValues unstaged = true
  · rw [if_pos hf, (falseIn_iff_count_zero unstaged).mp hf]
    simp
  · rw [if_neg hf]
    have hc0 : unstaged.count ≠ some 0 := fun hc =>
      hf ((falseIn_iff_count_zero unstaged).mpr hc)
    split <;> simp_all

/-- Witness for `commit_wrongUnstagedDict_iff_count_zero` at a concrete
input: a diff with `count = 1` and empty sequences is not rejected as
malformed. -/
theorem commit_wrongUnstagedDict_iff_count_zero_witness :
    ¬ ((FVSState.commit 0 (some "init")
        ⟨some 1, some [], some [], some [], some []⟩ env0).1 =
      .error .wrongUnstagedDict) :=
  fun h =>
    by simpa using
      (commit_wrongUnstagedDict_iff_count_zero 0 (some "init")
        ⟨some 1, some [], some [], some [], some []⟩ env0 rfl
        (by simp) (by simp)).mp h

/-- Claim C10: a diff whose four sequences are present and non-empty but
whose `count` is `0` is rejected with `FVSWrongUnstagedDict`, because the
integer `0` compares equal to `False` in the `False in [...]` membership
test; the environment is untouched. -/
theorem commit_rejects_zero_count
    (nextId : Nat) (message : Option String) (env : FVSEnv)
    (la lm lr li : List FVSEntry)
    (hm : hasMetadata env nextId = false)
    (h1 : message ≠ none) (h2 : message ≠ some "")
    (ha : la ≠ []) (hb : lm ≠ []) (hc : lr ≠ []) (hd : li ≠ []) :
    FVSState.commit nextId message ⟨some 0, some la, some lm, some lr, some li⟩
        env =
      (.error .wrongUnstagedDict, env, []) := by
  have hmsg : ¬ (message = none ∨ message = some "") := by
    rintro (h | h)
    · exact h1 h
    · exact h2 h
  unfold FVSState.commit
  rw [if_neg (by simp [hm]), if_neg hmsg, if_pos (by
    simp [falseInUnstagedValues, pyFalseEqCount, pyFalseEqSeq])]

/-- Witness for `commit_rejects_zero_count`: the concrete zero-count diff
with one entry in each sequence is rejected as malformed. -/
theorem commit_rejects_zero_count_witness :
    FVSState.commit 0 (some "init")
        ⟨some 0, some [entA], some [entA], some [entA], some [entA]⟩ env0 =
      (.error .wrongUnstagedDict, env0, []) :=
  commit_rejects_zero_count 0 (some "init") env0 [entA] [entA] [entA] [entA]
    rfl (by simp) (by simp) (by simp) (by simp) (by simp) (by simp)

/-- Claim C2: `has_relative_path` with the supported scope `"any"` on a
state where no partition holds the path does NOT return the not-found
signal --- control falls through to the subscript `self.__files["any"]`,
which raises `KeyError`. -/
theorem has_relative_path_any_no_match_keyerror :
    FVSState.has_relative_path ⟨none, ⟨0, [], [], [], []⟩⟩ "/a" "any" =
      .error (.keyError "any") := rfl

/-- Claim C3: when `commit` fails one of its precondition checks (empty or
`None` message, or a diff caught by the `False in [...]` check), it fails
before any collaborator call: the result is an error, the environment is
returned unchanged, the event trace is empty, and loading the reserved
state id from the resulting environment still reports it absent. -/
theorem commit_precondition_failure_no_effect
    (nextId : Nat) (message : Option String) (unstaged : UnstagedDiff)
    (env : FVSEnv)
    (hm : hasMetadata env nextId = false)
    (hpre : message = none ∨ message = some "" ∨
      falseInUnstagedValues unstaged = true) :
    (∃ e, FVSState.commit nextId message unstaged env = (.error e, env, [])) ∧
      FVSState.load env nextId = .error (.stateNotFound nextId) := by
  constructor
  · unfold FVSState.commit
    rw [if_neg (by simp [hm])]
    rcases hpre with h | h | h
    · exact ⟨.emptyCommitMessage, by rw [if_pos (Or.inl h)]⟩
    · exact ⟨.emptyCommitMessage, by rw [if_pos (Or.inr h)]⟩
    · by_cases hmsg : message = none ∨ message = some ""
      · exact ⟨.emptyCommitMessage, by rw [if_pos hmsg]⟩
      · exact ⟨.wrongUnstagedDict, by rw [if_neg hmsg, if_pos h]⟩
  · unfold FVSState.load
    rw [find_metadata_none env.metadata nextId hm]

/-- Witness for `commit_precondition_failure_no_effect`: committing with
message `None` into the empty environment fails and leaves state 0
unloadable. -/
theorem commit_precondition_failure_no_effect_witness :
    (∃ e, FVSState.commit 0 none
        ⟨some 1, some [entA], some [], some [], some []⟩ env0 =
      (.error e, env0, [])) ∧
      FVSState.load env0 0 = .error (.stateNotFound 0) :=
  commit_precondition_failure_no_effect 0 none
    ⟨some 1, some [entA], some [], some [], some []⟩ env0 rfl (Or.inl rfl)

/-- Claim C4: a successful `commit` followed by `load` of the same state id
from the resulting environment reconstructs a state with exactly the same
files record (the same four partitions and the same count). -/
theorem commit_load_roundtrip
    (nextId : Nat) (message : Option String) (unstaged : UnstagedDiff)
    (env : FVSEnv) (s : FVSState) (env' : FVSEnv) (tr : List FVSEvent)
    (h : FVSState.commit nextId message unstaged env = (.ok s, env', tr)) :
    FVSState.load env' nextId = .ok ⟨some nextId, s.files⟩ := by
  obtain ⟨hm, c, la, lm, lr, li, hc, ha, hmo, hr, hi, hs, he, ht⟩ :=
    commit_ok_inv h
  subst hs
  subst he
  unfold FVSState.load
  unfold hasMetadata at hm
  rw [find_metadata_append env.metadata nextId _ hm]

/-- Witness for `commit_load_roundtrip`: a concrete commit of one added and
one intact entry as state 0, whose load reproduces the committed record. -/
theorem commit_load_roundtrip_witness :
    FVSState.load
        ⟨["ha"], [(0, ⟨2, [("ha", entA)], [], [], [("hb", entB)]⟩)]⟩ 0 =
      .ok ⟨some 0, ⟨2, [("ha", entA)], [], [], [("hb", entB)]⟩⟩ :=
  commit_load_roundtrip 0 (some "m")
    ⟨some 2, some [entA], some [], some [], some [entB]⟩ env0
    ⟨some 0, ⟨2, [("ha", entA)], [], [], [("hb", entB)]⟩⟩
    ⟨["ha"], [(0, ⟨2, [("ha", entA)], [], [], [("hb", entB)]⟩)]⟩
    [FVSEvent.addFileOp entA, FVSEvent.completeTx,
      FVSEvent.writeMetadata 0 ⟨2, [("ha", entA)], [], [], [("hb", entB)]⟩]
    rfl

/-- Claim C5: `break_references` submits to the content store exactly one
delete per value of the added partition followed by one per value of the
modified partition, then a single transaction completion, and every delete
it submits is for a value of the added or modified partition (so none for
entries only in removed or intact). -/
theorem break_references_deletes
    (s : FVSState) (env : FVSEnv) :
    (FVSState.break_references s env).2 =
      ((s.files.added.map Prod.snd ++ s.files.modified.map Prod.snd).map
        FVSEvent.deleteFileOp) ++ [FVSEvent.completeTx] ∧
    ∀ e, FVSEvent.deleteFileOp e ∈ (FVSState.break_references s env).2 →
      e ∈ s.files.added.map Prod.snd ++ s.files.modified.map Prod.snd := by
  refine ⟨rfl, ?_⟩
  intro e he
  simp only [FVSState.break_references, List.mem_append, List.mem_map,
    List.mem_singleton] at he
  rcases he with ⟨x, hx, hex⟩ | he
  · cases hex
    simp only [List.mem_append, List.mem_map]
    rcases hx with ⟨p, hp, hpx⟩ | ⟨p, hp, hpx⟩
    · exact Or.inl ⟨p, hp, hpx⟩
    · exact Or.inr ⟨p, hp, hpx⟩
  · cases he

/-- Witness for `break_references_deletes`: on a state with one added, one
modified, one removed entry, the submitted trace is the two deletes then
the completion, and the added entry's delete indeed stems from the added
partition. -/
theorem break_references_deletes_witness :
    (FVSState.break_references
        ⟨some 1, ⟨3, [("ha", entA)], [("hb", entB)], [("hc", entC)], []⟩⟩
        env0).2 =
      (((⟨some 1, ⟨3, [("ha", entA)], [("hb", entB)], [("hc", entC)], []⟩⟩ :
          FVSState).files.added.map Prod.snd ++
        (⟨some 1, ⟨3, [("ha", entA)], [("hb", entB)], [("hc", entC)], []⟩⟩ :
          FVSState).files.modified.map Prod.snd).map
        FVSEvent.deleteFileOp) ++ [FVSEvent.completeTx] ∧
    entA ∈ (⟨some 1, ⟨3, [("ha", entA)], [("hb", entB)], [("hc", entC)], []⟩⟩ :
        FVSState).files.added.map Prod.snd ++
      (⟨some 1, ⟨3, [("ha", entA)], [("hb", entB)], [("hc", entC)], []⟩⟩ :
        FVSState).files.modified.map Prod.snd :=
  ⟨(break_references_deletes
      ⟨some 1, ⟨3, [("ha", entA)], [("hb", entB)], [("hc", entC)], []⟩⟩
      env0).1,
   (break_references_deletes
      ⟨some 1, ⟨3, [("ha", entA)], [("hb", entB)], [("hc", entC)], []⟩⟩
      env0).2 entA (by decide)⟩

/-- Claim C6: under scope `"any"`, `has_relative_path` never consults the
removed partition (replacing it changes nothing), and the first match is
taken in the order intact, then modified, then added --- in particular an
intact entry wins over an added one for the same path. -/
theorem has_relative_path_any_search_order (s : FVSState) (p : String) :
    (∀ r, FVSState.has_relative_path
        ⟨s.state_id, ⟨s.files.count, s.files.added, s.files.modified, r,
          s.files.intact⟩⟩ p "any" =
      FVSState.has_relative_path s p "any") ∧
    (∀ f, findByRelPath s.files.intact p = some f →
      FVSState.has_relative_path s p "any" = .ok (some f)) ∧
    (findByRelPath s.files.intact p = none →
      ∀ f, findByRelPath s.files.modified p = some f →
        FVSState.has_relative_path s p "any" = .ok (some f)) ∧
    (findByRelPath s.files.intact p = none →
      findByRelPath s.files.modified p = none →
      ∀ f, findByRelPath s.files.added p = some f →
        FVSState.has_relative_path s p "any" = .ok (some f)) := by
  refine ⟨fun r => rfl, ?_, ?_, ?_⟩
  · intro f hf
    simp [FVSState.has_relative_path, hf]
  · intro h0 f hf
    simp [FVSState.has_relative_path, h0, hf]
  · intro h0 h1 f hf
    simp [FVSState.has_relative_path, h0, h1, hf]

/-- Witness for `has_relative_path_any_search_order`: with `/a` present in
both the intact partition (as `entA2`) and the added partition (as `entA`),
the `"any"` lookup returns the intact entry. -/
theorem has_relative_path_any_search_order_witness :
    FVSState.has_relative_path
        ⟨some 1, ⟨2, [("ha", entA)], [], [], [("ha2", entA2)]⟩⟩ "/a" "any" =
      .ok (some entA2) :=
  (has_relative_path_any_search_order
    ⟨some 1, ⟨2, [("ha", entA)], [], [], [("ha2", entA2)]⟩⟩ "/a").2.1 entA2
    (by decide)

/-- Claim C7: `has_file` answers true exactly when the hash is a key of the
added, modified or intact partition; a hash occurring only in removed, or
nowhere, yields false. -/
theorem has_file_iff_key_in_added_modified_intact (s : FVSState) (x : String) :
    s.has_file x = true ↔
      (x ∈ dictKeys s.files.added ∨ x ∈ dictKeys s.files.modified ∨
        x ∈ dictKeys s.files.intact) := by
  simp only [FVSState.has_file, dictContains, dictKeys, Bool.or_eq_true,
    List.any_eq_true, List.mem_map, beq_iff_eq]
  constructor
  · rintro ((⟨p, hp, hq⟩ | ⟨p, hp, hq⟩) | ⟨p, hp, hq⟩)
    · exact Or.inl ⟨p, hp, hq⟩
    · exact Or.inr (Or.inl ⟨p, hp, hq⟩)
    · exact Or.inr (Or.inr ⟨p, hp, hq⟩)
  · rintro (⟨p, hp, hq⟩ | ⟨p, hp, hq⟩ | ⟨p, hp, hq⟩)
    · exact Or.inl (Or.inl ⟨p, hp, hq⟩)
    · exact Or.inl (Or.inr ⟨p, hp, hq⟩)
    · exact Or.inr ⟨p, hp, hq⟩

/-- Claim C8, counterexample: `commit` accepts a diff that lists the same
content hash under both added and modified, and the committed state then
holds that hash as a key of both partitions, so the four key sets are not
pairwise disjoint. -/
theorem commit_overlapping_hash_not_disjoint :
    (FVSState.commit 0 (some "m")
        ⟨some 1, some [entA], some [entA], some [], some []⟩ env0).1 =
      .ok ⟨some 0, ⟨1, [("ha", entA)], [("ha", entA)], [], []⟩⟩ ∧
    filesKeysDisjoint ⟨1, [("ha", entA)], [("ha", entA)], [], []⟩ = false := by
  exact ⟨rfl, rfl⟩

/-- Claim C8, amended: when the diff's four sequences carry pairwise
disjoint sets of content hashes (as a correct working-tree scanner
produces), the committed state's four partitions have pairwise disjoint key
sets; `commit` itself does not enforce this. -/
theorem commit_disjoint_diff_disjoint_partitions
    (nextId : Nat) (message : Option String) (unstaged : UnstagedDiff)
    (env : FVSEnv) (s : FVSState) (env' : FVSEnv) (tr : List FVSEvent)
    (la lm lr li : List FVSEntry)
    (h : FVSState.commit nextId message unstaged env = (.ok s, env', tr))
    (ha : unstaged.added = some la) (hmo : unstaged.modified = some lm)
    (hr : unstaged.removed = some lr) (hi : unstaged.intact = some li)
    (d1 : disjointB (md5s la) (md5s lm) = true)
    (d2 : disjointB (md5s la) (md5s lr) = true)
    (d3 : disjointB (md5s la) (md5s li) = true)
    (d4 : disjointB (md5s lm) (md5s lr) = true)
    (d5 : disjointB (md5s lm) (md5s li) = true)
    (d6 : disjointB (md5s lr) (md5s li) = true) :
    filesKeysDisjoint s.files = true := by
  obtain ⟨hm, c, la', lm', lr', li', hc', ha', hmo', hr', hi', hs, he, ht⟩ :=
    commit_ok_inv h
  rw [ha] at ha'
  rw [hmo] at hmo'
  rw [hr] at hr'
  rw [hi] at hi'
  cases ha'
  cases hmo'
  cases hr'
  cases hi'
  subst hs
  simp only [buildFiles, filesKeysDisjoint, Bool.and_eq_true]
  exact ⟨⟨⟨⟨⟨disjointB_mono (keys_insertAll_subset la) (keys_insertAll_subset lm) d1,
    disjointB_mono (keys_insertAll_subset la) (keys_insertAll_subset lr) d2⟩,
    disjointB_mono (keys_insertAll_subset la) (keys_insertAll_subset li) d3⟩,
    disjointB_mono (keys_insertAll_subset lm) (keys_insertAll_subset lr) d4⟩,
    disjointB_mono (keys_insertAll_subset lm) (keys_insertAll_subset li) d5⟩,
    disjointB_mono (keys_insertAll_subset lr) (keys_insertAll_subset li) d6⟩

/-- Witness for `commit_disjoint_diff_disjoint_partitions`: the committed
record for a concrete diff with distinct hashes in added and intact has
pairwise disjoint partition keys. -/
theorem commit_disjoint_diff_disjoint_partitions_witness :
    filesKeysDisjoint
        (⟨some 0, ⟨2, [("ha", entA)], [], [], [("hb", entB)]⟩⟩ :
          FVSState).files = true :=
  commit_disjoint_diff_disjoint_partitions 0 (some "m")
    ⟨some 2, some [entA], some [], some [], some [entB]⟩ env0
    ⟨some 0, ⟨2, [("ha", entA)], [], [], [("hb", entB)]⟩⟩
    ⟨["ha"], [(0, ⟨2, [("ha", entA)], [], [], [("hb", entB)]⟩)]⟩
    [FVSEvent.addFileOp entA, FVSEvent.completeTx,
      FVSEvent.writeMetadata 0 ⟨2, [("ha", entA)], [], [], [("hb", entB)]⟩]
    [entA] [] [] [entB]
    rfl rfl rfl rfl rfl
    (by decide) (by decide) (by decide) (by decide) (by decide) (by decide)

/-- Claim C9: in every successful commit the trace of collaborator calls is
some queue of content `add_file` registrations, then the single transaction
completion, then the metadata write --- the content-store transaction is
completed strictly before the state's metadata is serialized. -/
theorem commit_tx_before_metadata
    (nextId : Nat) (message : Option String) (unstaged : UnstagedDiff)
    (env : FVSEnv) (s : FVSState) (env' : FVSEnv) (tr : List FVSEvent)
    (h : FVSState.commit nextId message unstaged env = (.ok s, env', tr)) :
    ∃ adds : List FVSEntry, tr = adds.map FVSEvent.addFileOp ++
      [FVSEvent.completeTx, FVSEvent.writeMetadata nextId s.files] := by
  obtain ⟨hm, c, la, lm, lr, li, hc, ha, hmo, hr, hi, hs, he, ht⟩ :=
    commit_ok_inv h
  subst hs
  exact ⟨la ++ lm, ht⟩

/-- Witness for `commit_tx_before_metadata`: the concrete commit of one
added and one intact entry emits its add, then the completion, then the
metadata write. -/
theorem commit_tx_before_metadata_witness :
    ∃ adds : List FVSEntry, ([FVSEvent.addFileOp entA, FVSEvent.completeTx,
        FVSEvent.writeMetadata 0 ⟨2, [("ha", entA)], [], [], [("hb", entB)]⟩] :
          List FVSEvent) =
      adds.map FVSEvent.addFileOp ++
        [FVSEvent.completeTx, FVSEvent.writeMetadata 0
          (⟨some 0, ⟨2, [("ha", entA)], [], [], [("hb", entB)]⟩⟩ :
            FVSState).files] :=
  commit_tx_before_metadata 0 (some "m")
    ⟨some 2, some [entA], some [], some [], some [entB]⟩ env0
    ⟨some 0, ⟨2, [("ha", entA)], [], [], [("hb", entB)]⟩⟩
    ⟨["ha"], [(0, ⟨2, [("ha", entA)], [], [], [("hb", entB)]⟩)]⟩
    [FVSEvent.addFileOp entA, FVSEvent.completeTx,
      FVSEvent.writeMetadata 0 ⟨2, [("ha", entA)], [], [], [("hb", entB)]⟩]
    rfl
